import Mathlib

/-!
Shallow embedding of the serialization/deserialization core of the
pyrivet interface (src/pyrivet/rivet.py): the PointCloud and MetricSpace
encoders, the bounds / Betti / barcode-slice parsers, and the Bounds
rectangle operations.

Modelling conventions:
* Python floats and `fractions.Fraction` values are modelled as `ℚ`.
  The claims under study only involve exactly representable decimal
  values, so no binary rounding behaviour is relevant.
* Byte strings from the engine are modelled as `String` (all inputs of
  interest are ASCII; `str(line, 'utf-8')` is the identity there).
* Python exceptions (ValueError, TypeError, IndexError,
  ZeroDivisionError) are modelled with `Except String`.
* Output streams: every write sequence performed by the encoders is
  newline-terminated, so a file is modelled as its list of lines
  (each line without its trailing newline character).
-/

deriving instance DecidableEq for Except

namespace Rivet

/-- Python absolute value, written with an explicit sign test so that it
evaluates by kernel reduction. -/
def absQ (q : ℚ) : ℚ := if q < 0 then -q else q

/-- Characters stripped by Python str.strip / bytes.strip (ASCII
whitespace). -/
def wsChar (c : Char) : Bool :=
  c = ' ' || c = '\t' || c = '\n' || c = '\r' || c = '\x0b' || c = '\x0c'

/-- Python s.strip(): remove leading and trailing whitespace. -/
def pyStrip (s : String) : String :=
  String.mk (((s.data.dropWhile wsChar).reverse.dropWhile wsChar).reverse)

/-- Split a character list at every occurrence of a separator character;
the empty list yields one empty group, as Python str.split(sep). -/
def splitCharList (sep : Char) : List Char → List (List Char)
  | [] => [[]]
  | c :: cs =>
    if c = sep then [] :: splitCharList sep cs
    else
      match splitCharList sep cs with
      | [] => [[c]]
      | g :: gs => (c :: g) :: gs

/-- Python s.split(sep) for a one-character separator. -/
def strSplitOnChar (s : String) (sep : Char) : List String :=
  (splitCharList sep s.data).map String.mk

/-- Python sep.join(parts). -/
def joinSep (sep : String) : List String → String
  | [] => ""
  | [x] => x
  | x :: xs => x ++ sep ++ joinSep sep xs

/-- Numeric value of a list of decimal digit characters. -/
def digitsVal (ds : List Char) : Nat :=
  ds.foldl (fun a c => a * 10 + (c.toNat - 48)) 0

/-- Python `int(s)`: optional sign then a nonempty run of digits
(whitespace stripped first).  Exponents/underscores are not modelled. -/
def pyInt (s : String) : Except String Int :=
  let t := (pyStrip s).data
  let signAndBody : (Int × List Char) :=
    match t with
    | '-' :: rest => (-1, rest)
    | '+' :: rest => (1, rest)
    | _ => (1, t)
  if signAndBody.2 ≠ [] ∧ signAndBody.2.all Char.isDigit then
    .ok (signAndBody.1 * (digitsVal signAndBody.2 : Int))
  else
    .error "ValueError: invalid literal for int"

/-- Python `float(s)` restricted to plain decimal literals:
optional sign, digits with an optional decimal point (whitespace
stripped first).  Exponents, inf and nan are not modelled: none of the
texts analysed here contain them. -/
def pyFloat (s : String) : Except String ℚ :=
  let t := (pyStrip s).data
  let signAndBody : (Int × List Char) :=
    match t with
    | '-' :: rest => (-1, rest)
    | '+' :: rest => (1, rest)
    | _ => (1, t)
  let u := signAndBody.2
  let ip := u.takeWhile (fun c => c ≠ '.')
  match u.dropWhile (fun c => c ≠ '.') with
  | [] =>
    if ip ≠ [] ∧ ip.all Char.isDigit then
      .ok (mkRat (signAndBody.1 * (digitsVal ip : Int)) 1)
    else .error "ValueError: could not convert string to float"
  | _ :: fp =>
    if (ip ≠ [] ∨ fp ≠ []) ∧ ip.all Char.isDigit ∧ fp.all Char.isDigit then
      .ok (mkRat (signAndBody.1 *
        ((digitsVal ip * 10 ^ fp.length + digitsVal fp : Nat) : Int)) (10 ^ fp.length))
    else .error "ValueError: could not convert string to float"

/-- Python `fractions.Fraction(s)`: either `a/b` with integer parts, or a
plain numeric literal (handled by the same decimal reading as `pyFloat`,
which is exact on `ℚ`). -/
def pyFraction (s : String) : Except String ℚ :=
  match strSplitOnChar (pyStrip s) '/' with
  | [a, b] => do
    let n ← pyInt a
    let d ← pyInt b
    if d = 0 then .error "ZeroDivisionError" else .ok (Rat.divInt n d)
  | [_] => pyFloat s
  | _ => .error "ValueError: invalid fraction literal"

/-- Python list indexing `l[i]` for nonnegative `i`: raises IndexError
when out of range. -/
def pyIndexE (l : List α) (i : Nat) : Except String α :=
  match l[i]? with
  | some a => .ok a
  | none => .error "IndexError: list index out of range"

/-- Python `max(*args)` applied to a list of numbers: with two or more
arguments it is their maximum; with zero or one argument it raises a
TypeError (a single float argument is not iterable). -/
def pyMaxStar (l : List ℚ) : Except String ℚ :=
  match l with
  | [] => .error "TypeError: max expected at least 1 argument, got 0"
  | [_] => .error "TypeError: object is not iterable"
  | x :: xs => .ok (xs.foldl max x)

/-- Effectful map over a list in the `Except` monad, first error wins. -/
def exMapM (f : α → Except String β) : List α → Except String (List β)
  | [] => .ok []
  | a :: l =>
    match f a with
    | .error e => .error e
    | .ok b =>
      match exMapM f l with
      | .error e => .error e
      | .ok bs => .ok (b :: bs)

/-- Python `'-:f-:'.format(x)` (fixed-point, 6 decimal places) on an exact
rational.  Rounds half away from zero; on the exactly-representable
values appearing in this development this agrees with Python. -/
def pad6 (n : Nat) : String :=
  let s := toString n
  String.mk (List.replicate (6 - s.length) '0') ++ s

/-- Fixed-point rendering with six decimal places, as Python percent-f.
The scaled value floor(abs(q) * 10^6 + 1/2) is computed on the reduced
numerator/denominator representation so that it evaluates by kernel
reduction; on the exactly representable values appearing here this
agrees with Python. -/
def formatFixed6 (q : ℚ) : String :=
  (if q.num < 0 then "-" else "")
    ++ toString ((q.num.natAbs * 2000000 + q.den) / (2 * q.den) / 1000000)
    ++ "." ++ pad6 ((q.num.natAbs * 2000000 + q.den) / (2 * q.den) % 1000000)

/-- Element of a point cloud (rivet.py class Point): an appearance value
and a coordinate tuple.  For the PointCloud claims the appearance is a
scalar. -/
structure Point where
  appearance : ℚ
  coords : List ℚ
deriving DecidableEq, Repr

/-- Python property Point.dimension: the length of the coordinate tuple. -/
def Point.dimension (p : Point) : Nat := p.coords.length

/-- Embedding of PointCloud._calc_max_dist: running bounds lo and hi both
start at 0 and are folded over every coordinate of every point; the
result is the absolute difference. -/
def calc_max_dist (pts : List Point) : ℚ :=
  let lohi := pts.foldl
    (fun (q : ℚ × ℚ) p => p.coords.foldl
      (fun (q : ℚ × ℚ) c =>
        (if c < q.1 then c else q.1, if c > q.2 then c else q.2)) q)
    (0, 0)
  absQ (lohi.2 - lohi.1)

/-- Fields of a constructed PointCloud object. -/
structure PointCloud where
  second_param_name : Option String
  points : List Point
  comments : Option String
  dimension : Nat
  max_dist : ℚ
deriving DecidableEq, Repr

/-- Python truthiness of an optional string: None and the empty string
are falsy. -/
def truthyStr : Option String → Option String
  | some s => if s = "" then none else some s
  | none => none

/-- Index and dimension of the first point (scanning from position 0)
whose dimension differs from the expected one — the loop
`for i, p in enumerate(points)` of PointCloud.__init__. -/
def firstMismatch (d : Nat) : List Point → Option (Nat × Nat)
  | [] => none
  | p :: ps =>
    if p.dimension ≠ d then some (0, p.dimension)
    else (firstMismatch d ps).map (fun r => (r.1 + 1, r.2))

/-- Text of the ValueError raised by PointCloud.__init__ on a dimension
mismatch. -/
def mismatchMsg (expected i got : Nat) : String :=
  "Expected points of dimension " ++ toString expected ++
    ", but point at position " ++ toString i ++ " has dimension " ++ toString got

/-- Embedding of PointCloud.__init__: empty point lists raise IndexError
at `points[0]`; a dimension mismatch raises ValueError naming the first
offending position; `max_dist or self._calc_max_dist()` replaces a falsy
(absent or zero) max_dist by the computed one. -/
def pointCloudInit (pts : List Point) (second : Option String)
    (comments : Option String) (maxDist : Option ℚ) : Except String PointCloud :=
  match pts with
  | [] => .error "IndexError: list index out of range"
  | p0 :: rest =>
    match firstMismatch p0.dimension (p0 :: rest) with
    | some r => .error (mismatchMsg p0.dimension r.1 r.2)
    | none =>
      .ok { second_param_name := truthyStr second
            points := p0 :: rest
            comments := comments
            dimension := p0.dimension
            max_dist :=
              match maxDist with
              | some q => if q = 0 then calc_max_dist (p0 :: rest) else q
              | none => calc_max_dist (p0 :: rest) }

/-- Comment block written by PointCloud.save: nothing when the comments
field is falsy, otherwise each line of the comment text as a line
starting with a number sign and a space. -/
def commentLines : Option String → List String
  | some c => if c = "" then [] else (strSplitOnChar c '\n').map (fun l => "# " ++ l)
  | none => []

/-- Per-point line written by PointCloud.save: the coordinates as
percent-f tokens each followed by a space, then — only when a second
parameter name is present — the appearance value as one more token. -/
def pointLine (spn : Option String) (p : Point) : String :=
  String.join (p.coords.map (fun c => formatFixed6 c ++ " ")) ++
    (match spn with
     | some _ => formatFixed6 p.appearance ++ " "
     | none => "")

/-- Embedding of PointCloud.save as the list of lines it writes. -/
def pointCloudSave (pc : PointCloud) : List String :=
  commentLines pc.comments ++
    (["points", toString pc.dimension, formatFixed6 pc.max_dist,
      (match pc.second_param_name with
       | some s => s
       | none => "no function")] ++
     (pc.points.map (pointLine pc.second_param_name) ++ [""]))

/-- Fields of a MetricSpace object (rivet.py class MetricSpace). -/
structure MetricSpace where
  appearance_label : String
  distance_label : String
  appearance_values : Option (List ℚ)
  distance_matrix : List (List ℚ)
  comment : Option String
deriving DecidableEq, Repr

/-- Comment block written by MetricSpace.save: the comment with every
newline replaced by newline-number-sign, the whole prefixed with a
number sign — i.e. each comment line prefixed with the sign. -/
def metricCommentLines : Option String → List String
  | some c => if c = "" then [] else (strSplitOnChar c '\n').map (fun l => "#" ++ l)
  | none => []

/-- Appearance-values line of MetricSpace.save: percent-f-space tokens
joined with single spaces. -/
def appearanceLine (vs : List ℚ) : String :=
  joinSep " " (vs.map (fun s => formatFixed6 s ++ " "))

/-- The list comprehension `[m[i][j] for i in range(dim) for j in
range(dim)]` over the full square index range, with Python IndexError
semantics on ragged rows. -/
def fullEntries (m : List (List ℚ)) : Except String (List ℚ) :=
  match exMapM (fun i =>
      match pyIndexE m i with
      | .error e => .error e
      | .ok row => exMapM (fun j => pyIndexE row j) (List.range m.length))
    (List.range m.length) with
  | .error e => .error e
  | .ok rows => .ok rows.flatten

/-- Row line written by MetricSpace.save for row r: columns r+1 to dim-1
as percent-f tokens each followed by a space (Python
`range(row + 1, dim)` is `List.range' (r+1) (dim-(r+1))`). -/
def metricRowLine (m : List (List ℚ)) (dim r : Nat) : Except String String :=
  match exMapM (fun c =>
      match pyIndexE m r with
      | .error e => .error e
      | .ok row =>
        match pyIndexE row c with
        | .error e => .error e
        | .ok x => .ok (formatFixed6 x ++ " "))
    (List.range' (r + 1) (dim - (r + 1))) with
  | .error e => .error e
  | .ok toks => .ok (String.join toks)

/-- The row-writing loop of MetricSpace.save: rows written so far plus
the error, if any, that interrupted the loop.  (A mid-row IndexError in
Python would additionally leave a partial unterminated line behind; that
situation is unreachable in every theorem below, which only evaluate the
loop on square matrices.) -/
def metricRowsStep (m : List (List ℚ)) (dim : Nat)
    (acc : List String × Option String) (r : Nat) : List String × Option String :=
  match acc.2 with
  | some _ => acc
  | none =>
    match metricRowLine m dim r with
    | .error e => (acc.1, some e)
    | .ok s => (acc.1 ++ [s], none)

/-- The row-writing loop over all row indices. -/
def metricRows (m : List (List ℚ)) (dim : Nat) : List String × Option String :=
  (List.range dim).foldl (metricRowsStep m dim) ([], none)

/-- Header lines of MetricSpace.save, written before the max-distance
computation: the literal metric line, the comment block, the appearance
block (or the no-function line plus the point count), and the distance
label. -/
def metricHead (ms : MetricSpace) : List String :=
  ["metric"] ++ metricCommentLines ms.comment ++
    (match ms.appearance_values with
     | some vs => [ms.appearance_label, appearanceLine vs]
     | none => ["no function", toString ms.distance_matrix.length]) ++
    [ms.distance_label]

/-- Embedding of MetricSpace.save: the lines written (in order), paired
with the exception message if one was raised part-way through. -/
def metricSave (ms : MetricSpace) : List String × Option String :=
  match fullEntries ms.distance_matrix with
  | .error e => (metricHead ms, some e)
  | .ok entries =>
    match pyMaxStar entries with
    | .error e => (metricHead ms, some e)
    | .ok maxd =>
      (metricHead ms ++ [formatFixed6 maxd]
         ++ (metricRows ms.distance_matrix ms.distance_matrix.length).1,
       (metricRows ms.distance_matrix ms.distance_matrix.length).2)

/-- Rectangle in parameter space (rivet.py class Bounds).  The corner
containers produced by parse_bounds are tuples of whatever arity the
input supplied, so corners are modelled as lists. -/
structure Bounds where
  lower_left : List ℚ
  upper_right : List ℚ
deriving DecidableEq, Repr

/-- Embedding of Bounds.common_bounds: coordinate-wise min of the two
lower-left corners and max of the two upper-right corners at indices 0
and 1, with Python IndexError semantics on shorter corners. -/
def common_bounds (a b : Bounds) : Except String Bounds := do
  let l00 ← pyIndexE a.lower_left 0
  let l01 ← pyIndexE b.lower_left 0
  let l10 ← pyIndexE a.lower_left 1
  let l11 ← pyIndexE b.lower_left 1
  let u00 ← pyIndexE a.upper_right 0
  let u01 ← pyIndexE b.upper_right 0
  let u10 ← pyIndexE a.upper_right 1
  let u11 ← pyIndexE b.upper_right 1
  .ok ⟨[min l00 l01, min l10 l11], [max u00 u01, max u10 u11]⟩

/-- Boolean prefix test on strings via their character lists (same as
Python str.startswith for the plain literals used here). -/
def strStartsWith (s p : String) : Bool :=
  p.data.isPrefixOf s.data

/-- String suffix from character position n, Python `s[n:]`. -/
def strDropChars (s : String) (n : Nat) : String :=
  String.mk (s.data.drop n)

/-- Python `tuple(map(float, s.split(",")))` used by parse_bounds. -/
def parseFloats (s : String) : Except String (List ℚ) :=
  exMapM pyFloat (strSplitOnChar s ',')

/-- Per-line step of parse_bounds: strip, then the two independent
prefix tests of the source (`low:` keeps characters from position 5
onward, `high:` from position 6). -/
def boundsStepLow (b : Bounds) (l : String) : Except String Bounds :=
  if strStartsWith l "low:" then
    match parseFloats (strDropChars l 5) with
    | .error e => .error e
    | .ok v => .ok { b with lower_left := v }
  else .ok b

/-- Second prefix test of the parse_bounds loop body. -/
def boundsStepHigh (b1 : Bounds) (l : String) : Except String Bounds :=
  if strStartsWith l "high:" then
    match parseFloats (strDropChars l 6) with
    | .error e => .error e
    | .ok v => .ok { b1 with upper_right := v }
  else .ok b1

/-- Full loop body: strip, then the two independent prefix tests. -/
def boundsStep (b : Bounds) (line : String) : Except String Bounds :=
  match boundsStepLow b (pyStrip line) with
  | .error e => .error e
  | .ok b1 => boundsStepHigh b1 (pyStrip line)

/-- Error-propagating fold step for parse_bounds. -/
def boundsStepE (st : Except String Bounds) (line : String) : Except String Bounds :=
  match st with
  | .error e => .error e
  | .ok b => boundsStep b line

/-- Embedding of parse_bounds: fold over all lines starting from the
default corners (0,0), (0,0). -/
def parse_bounds (lines : List String) : Except String Bounds :=
  lines.foldl boundsStepE (.ok ⟨[0, 0], [0, 0]⟩)

/-- Grade list of a Dimensions record (rivet.py class Dimensions). -/
structure Dimensions where
  x_grades : List ℚ
  y_grades : List ℚ
deriving DecidableEq, Repr

/-- MultiBetti record: a Dimensions plus the three xi lists. -/
structure MultiBetti where
  dimensions : Dimensions
  xi_0 : List (Int × Int × Int)
  xi_1 : List (Int × Int × Int)
  xi_2 : List (Int × Int × Int)
deriving DecidableEq, Repr

/-- Which grade list the Betti parser is currently appending to. -/
inductive GradeSel where
  | gx
  | gy
deriving DecidableEq, Repr

/-- Walking state of _parse_betti: the accumulated lists and the two
current-list registers (`current_grades`, `current_xi`). -/
structure BettiState where
  x_grades : List ℚ
  y_grades : List ℚ
  xi0 : List (Int × Int × Int)
  xi1 : List (Int × Int × Int)
  xi2 : List (Int × Int × Int)
  cur_grades : Option GradeSel
  cur_xi : Option (Fin 3)
deriving DecidableEq, Repr

/-- Initial state of _parse_betti. -/
def bettiInit : BettiState := ⟨[], [], [], [], [], none, none⟩

/-- Append a parsed triple to the xi list selected by `current_xi`. -/
def appendXi (st : BettiState) (i : Fin 3) (t : Int × Int × Int) : BettiState :=
  match i with
  | 0 => { st with xi0 := st.xi0 ++ [t] }
  | 1 => { st with xi1 := st.xi1 ++ [t] }
  | 2 => { st with xi2 := st.xi2 ++ [t] }

/-- Parse a line of the form open-bracket a,b,c close-bracket by
stripping the first and last character and splitting on commas, as
`tuple(map(int, line[1:-1].split(',')))`. -/
def parseTriple (l : String) : Except String (List Int) :=
  exMapM pyInt (strSplitOnChar (String.mk l.data.tail.dropLast) ',')

/-- Per-line transition of _parse_betti, mirroring the if/elif chain of
the source: keyword lines select a grade list, a blank line clears both
registers, a set grade register consumes the line as a Fraction, an
`xi_` line selects an xi list by the digit at position 3 (IndexError
past 2), and a set xi register consumes the line as an integer triple;
anything else is ignored. -/
def bettiTrans (st : BettiState) (l : String) : Except String BettiState :=
  if l = "x-grades" then .ok { st with cur_grades := some .gx }
  else if l = "y-grades" then .ok { st with cur_grades := some .gy }
  else if l = "" then .ok { st with cur_grades := none, cur_xi := none }
  else
    match st.cur_grades with
    | some sel =>
      match pyFraction l with
      | .error e => .error e
      | .ok q =>
        match sel with
        | .gx => .ok { st with x_grades := st.x_grades ++ [q] }
        | .gy => .ok { st with y_grades := st.y_grades ++ [q] }
    | none =>
      if strStartsWith l "xi_" then
        match pyIndexE l.data 3 with
        | .error e => .error e
        | .ok c =>
          match pyInt (String.mk [c]) with
          | .error e => .error e
          | .ok n =>
            if h : n.toNat < 3 ∧ 0 ≤ n then
              .ok { st with cur_xi := some ⟨n.toNat, h.1⟩ }
            else .error "IndexError: list index out of range"
      else
        match st.cur_xi with
        | some i =>
          match parseTriple l with
          | .error e => .error e
          | .ok vs =>
            match vs with
            | [a, b, c] => .ok (appendXi st i (a, b, c))
            | _ => .error "ValueError: tuple arity"
        | none => .ok st

/-- Per-line step of _parse_betti: strip, then dispatch. -/
def bettiStep (st : BettiState) (raw : String) : Except String BettiState :=
  bettiTrans st (pyStrip raw)

/-- Error-propagating fold step for _parse_betti. -/
def bettiStepE (st : Except String BettiState) (line : String) : Except String BettiState :=
  match st with
  | .error e => .error e
  | .ok b => bettiStep b line

/-- Embedding of _parse_betti: fold the transition over all lines and
package the result. -/
def parse_betti (lines : List String) : Except String MultiBetti :=
  match lines.foldl bettiStepE (.ok bettiInit) with
  | .error e => .error e
  | .ok st => .ok ⟨⟨st.x_grades, st.y_grades⟩, st.xi0, st.xi1, st.xi2⟩

/-- Modelled from the spec: class Bar of the barcode module (not under
src/): birth, death and multiplicity of one bar. -/
structure Bar where
  birth : ℚ
  death : ℚ
  multiplicity : Int
deriving DecidableEq, Repr

/-- Modelled from the spec: class Barcode of the barcode module (not
under src/): an ordered collection of bars. -/
structure Barcode where
  bars : List Bar
deriving DecidableEq, Repr

/-- Parse one stripped nonempty bar token of _parse_slices:
`birth, death, mult = part.split(b' ')` requires exactly three
space-separated fields; the multiplicity is the integer value of the
third field with its first character removed. -/
def parseBar (tok : String) : Except String Bar :=
  match strSplitOnChar tok ' ' with
  | [b, d, m] => do
    let bv ← pyFloat b
    let dv ← pyFloat d
    let mv ← pyInt (strDropChars m 1)
    .ok ⟨bv, dv, mv⟩
  | _ => .error "ValueError: bar unpack"

/-- The bar loop of _parse_slices: split the body on commas, strip each
token, skip empty tokens, parse the rest in order. -/
def parseBars : List String → Except String (List Bar)
  | [] => .ok []
  | t :: ts =>
    let p := pyStrip t
    if p = "" then parseBars ts
    else do
      let b ← parseBar p
      let bs ← parseBars ts
      .ok (b :: bs)

/-- Parse one stripped nonempty line of _parse_slices.  The colon split
`header, body = line.split(b':')` requires exactly one colon, and the
header split requires exactly one space; the bars are parsed before the
angle and offset floats, matching the statement order of the source. -/
def parseSliceLine (l : String) : Except String ((ℚ × ℚ) × Barcode) :=
  match strSplitOnChar l ':' with
  | [header, body] =>
    match strSplitOnChar header ' ' with
    | [a, o] => do
      let bars ← parseBars (strSplitOnChar body ',')
      let av ← pyFloat a
      let ov ← pyFloat o
      .ok ((av, ov), ⟨bars⟩)
    | _ => .error "ValueError: header unpack"
  | _ => .error "ValueError: line unpack"

/-- Embedding of _parse_slices: strip each line, skip blank lines, parse
the rest in input order. -/
def parse_slices : List String → Except String (List ((ℚ × ℚ) × Barcode))
  | [] => .ok []
  | l :: ls =>
    let s := pyStrip l
    if s = "" then parse_slices ls
    else
      match parseSliceLine s with
      | .error e => .error e
      | .ok p =>
        match parse_slices ls with
        | .error e => .error e
        | .ok rest => .ok (p :: rest)

/-- All coordinates of all points of a cloud, in order. -/
def allCoords (pts : List Point) : List ℚ :=
  pts.flatMap (fun p => p.coords)

/-- Modelled from the claim wording, for comparison with the source
computation: the maximum coordinate minus the minimum coordinate where
only the running lower bound is clamped to start at 0. -/
def span_claimed (pts : List Point) : ℚ :=
  ((allCoords pts).max?.getD 0) - ((0 :: allCoords pts).min?.getD 0)

/-- Split a string at the first occurrence of a character, returning the
parts before and after it. -/
def splitFirst (s : String) (c : Char) : Option (String × String) :=
  match s.data.dropWhile (fun x => x ≠ c) with
  | [] => none
  | _ :: post => some (String.mk (s.data.takeWhile (fun x => x ≠ c)), String.mk post)

/-- Modelled from the claim wording, for comparison with the source
parser: parse one slice line by splitting once at the first colon and
splitting the header once at the first space, the body handled as in the
source. -/
def parseSliceLineClaim (l : String) : Except String ((ℚ × ℚ) × Barcode) :=
  match splitFirst l ':' with
  | none => .error "ValueError: line unpack"
  | some hb =>
    match splitFirst hb.1 ' ' with
    | none => .error "ValueError: header unpack"
    | some ao => do
      let bars ← parseBars (strSplitOnChar hb.2 ',')
      let av ← pyFloat ao.1
      let ov ← pyFloat ao.2
      .ok ((av, ov), ⟨bars⟩)

/-- Modelled from the claim wording: the slice parser with
first-occurrence splitting, over a list of lines. -/
def parse_slices_claim : List String → Except String (List ((ℚ × ℚ) × Barcode))
  | [] => .ok []
  | l :: ls =>
    let s := pyStrip l
    if s = "" then parse_slices_claim ls
    else do
      let p ← parseSliceLineClaim s
      let rest ← parse_slices_claim ls
      .ok (p :: rest)

/-- Number of maximal nonempty space-free tokens in a line. -/
def countTokens (s : String) : Nat :=
  ((strSplitOnChar s ' ').filter (fun t => t ≠ "")).length

/-! Helper lemmas about folded minima and maxima. -/

theorem foldl_min_le_init (l : List ℚ) (a : ℚ) : l.foldl min a ≤ a := by
  induction l generalizing a with
  | nil => exact le_refl a
  | cons c l ih => exact le_trans (ih (min a c)) (min_le_left a c)

theorem foldl_min_le_mem {c : ℚ} {l : List ℚ} (a : ℚ) (h : c ∈ l) :
    l.foldl min a ≤ c := by
  induction l generalizing a with
  | nil => cases h
  | cons d l ih =>
    rcases List.mem_cons.1 h with rfl | h2
    · exact le_trans (foldl_min_le_init l (min a c)) (min_le_right a c)
    · exact ih (min a d) h2

theorem foldl_min_mem (l : List ℚ) (a : ℚ) : l.foldl min a = a ∨ l.foldl min a ∈ l := by
  induction l generalizing a with
  | nil => exact Or.inl rfl
  | cons c l ih =>
    have step : (c :: l).foldl min a = l.foldl min (min a c) := rfl
    rcases ih (min a c) with h | h
    · rcases le_total a c with hac | hca
      · exact Or.inl (by rw [step, h, min_eq_left hac])
      · exact Or.inr (by rw [step, h, min_eq_right hca]; exact List.mem_cons_self c l)
    · exact Or.inr (by rw [step]; exact List.mem_cons_of_mem c h)

theorem init_le_foldl_max (l : List ℚ) (a : ℚ) : a ≤ l.foldl max a := by
  induction l generalizing a with
  | nil => exact le_refl a
  | cons c l ih => exact le_trans (le_max_left a c) (ih (max a c))

theorem mem_le_foldl_max {c : ℚ} {l : List ℚ} (a : ℚ) (h : c ∈ l) :
    c ≤ l.foldl max a := by
  induction l generalizing a with
  | nil => cases h
  | cons d l ih =>
    rcases List.mem_cons.1 h with rfl | h2
    · exact le_trans (le_max_right a c) (init_le_foldl_max l (max a c))
    · exact ih (max a d) h2

theorem foldl_max_mem (l : List ℚ) (a : ℚ) : l.foldl max a = a ∨ l.foldl max a ∈ l := by
  induction l generalizing a with
  | nil => exact Or.inl rfl
  | cons c l ih =>
    have step : (c :: l).foldl max a = l.foldl max (max a c) := rfl
    rcases ih (max a c) with h | h
    · rcases le_total c a with hca | hac
      · exact Or.inl (by rw [step, h, max_eq_left hca])
      · exact Or.inr (by rw [step, h, max_eq_right hac]; exact List.mem_cons_self c l)
    · exact Or.inr (by rw [step]; exact List.mem_cons_of_mem c h)

/-! Helper lemmas about the max-distance computation. -/

theorem coordFold_eq (cs : List ℚ) (a b : ℚ) :
    cs.foldl (fun (q : ℚ × ℚ) c =>
        (if c < q.1 then c else q.1, if c > q.2 then c else q.2)) (a, b)
      = (cs.foldl min a, cs.foldl max b) := by
  induction cs generalizing a b with
  | nil => rfl
  | cons c cs ih =>
    simp only [List.foldl_cons]
    have h1 : (if c < a then c else a) = min a c := by
      rcases lt_or_le c a with h | h
      · rw [if_pos h, min_eq_right h.le]
      · rw [if_neg (not_lt.2 h), min_eq_left h]
    have h2 : (if c > b then c else b) = max b c := by
      rcases lt_or_le b c with h | h
      · rw [if_pos h, max_eq_right h.le]
      · rw [if_neg (not_lt.2 h), max_eq_left h]
    rw [h1, h2, ih]

theorem foldl_points_coords (f : ℚ × ℚ → ℚ → ℚ × ℚ) (pts : List Point) (init : ℚ × ℚ) :
    pts.foldl (fun q p => p.coords.foldl f q) init = (allCoords pts).foldl f init := by
  induction pts generalizing init with
  | nil => rfl
  | cons p pts ih =>
    simp only [List.foldl_cons, allCoords, List.flatMap_cons, List.foldl_append]
    exact ih (p.coords.foldl f init)

/-- The source's max-distance computation in closed form: folded maximum
minus folded minimum over all coordinates, both folds starting at 0 (the
absolute value is redundant because the difference is nonnegative). -/
theorem calc_max_dist_eq (pts : List Point) :
    calc_max_dist pts = (allCoords pts).foldl max 0 - (allCoords pts).foldl min 0 := by
  unfold calc_max_dist
  rw [foldl_points_coords, coordFold_eq]
  have h1 : (allCoords pts).foldl min 0 ≤ 0 := foldl_min_le_init _ 0
  have h2 : (0 : ℚ) ≤ (allCoords pts).foldl max 0 := init_le_foldl_max _ 0
  exact if_neg (by simp only [not_lt]; linarith)

/-! Helper lemmas about the dimension-mismatch scan. -/

theorem firstMismatch_eq_none {d : Nat} {l : List Point} :
    firstMismatch d l = none ↔ ∀ p ∈ l, p.dimension = d := by
  induction l with
  | nil => simp [firstMismatch]
  | cons p l ih =>
    by_cases h : p.dimension = d
    · simp [firstMismatch, h, ih, Option.map_eq_none]
    · simp [firstMismatch, h, Option.map_eq_none]

theorem firstMismatch_spec {d : Nat} {l : List Point} {i dd : Nat}
    (h : firstMismatch d l = some (i, dd)) :
    (l.get? i).map Point.dimension = some dd ∧ dd ≠ d ∧
      ∀ j, j < i → (l.get? j).map Point.dimension = some d := by
  induction l generalizing i dd with
  | nil => simp [firstMismatch] at h
  | cons p l ih =>
    by_cases hp : p.dimension = d
    · rw [firstMismatch, if_neg (by simpa using hp)] at h
      cases hfm : firstMismatch d l with
      | none => rw [hfm] at h; simp at h
      | some r =>
        rw [hfm] at h
        simp only [Option.map_some', Option.some_inj] at h
        obtain ⟨h1, h2⟩ : r.1 + 1 = i ∧ r.2 = dd := by
          constructor <;> [exact congrArg Prod.fst h; exact congrArg Prod.snd h]
        obtain ⟨ha, hb, hc⟩ := @ih r.1 r.2 (by rw [hfm])
        subst h1; subst h2
        refine ⟨ha, hb, ?_⟩
        intro j hj
        cases j with
        | zero => simpa using hp
        | succ j => exact hc j (by omega)
    · rw [firstMismatch, if_pos (by simpa using hp)] at h
      simp only [Option.some_inj] at h
      obtain ⟨h1, h2⟩ : (0 : Nat) = i ∧ p.dimension = dd := by
        constructor <;> [exact congrArg Prod.fst h; exact congrArg Prod.snd h]
      subst h1
      refine ⟨by simpa using h2.symm ▸ rfl, h2 ▸ hp, ?_⟩
      intro j hj
      omega

/-! Helper lemmas about exMapM and checked indexing. -/

theorem exMapM_ok_map {f : α → Except String β} (g : α → β) (l : List α)
    (h : ∀ a ∈ l, f a = .ok (g a)) : exMapM f l = .ok (l.map g) := by
  induction l with
  | nil => rfl
  | cons a l ih =>
    rw [exMapM, h a (List.mem_cons_self a l), ih (fun b hb => h b (List.mem_cons_of_mem a hb))]
    rfl

theorem getElem?_eq_getD {l : List α} {i : Nat} (d : α) (h : i < l.length) :
    l[i]? = some (l.getD i d) := by
  cases hg : l[i]? with
  | none => exact absurd (List.getElem?_eq_none_iff.1 hg) (by omega)
  | some a => simp [List.getD, hg]

theorem pyIndexE_eq_ok {l : List α} {i : Nat} (d : α) (h : i < l.length) :
    pyIndexE l i = .ok (l.getD i d) := by
  rw [pyIndexE, getElem?_eq_getD d h]

theorem map_getD_range (l : List α) (d : α) :
    (List.range l.length).map (fun i => l.getD i d) = l := by
  induction l with
  | nil => rfl
  | cons a l ih =>
    rw [List.length_cons, List.range_succ_eq_map, List.map_cons, List.map_map]
    have h1 : ((fun i => (a :: l).getD i d) ∘ Nat.succ) = fun i => l.getD i d := rfl
    rw [h1, ih]
    rfl

theorem exMapM_pyIndexE_range (l : List α) (d : α) :
    exMapM (pyIndexE l) (List.range l.length) = .ok l := by
  rw [exMapM_ok_map (fun i => l.getD i d) _
    (fun i hi => pyIndexE_eq_ok d (List.mem_range.1 hi))]
  rw [map_getD_range]

theorem map_getD_range'_append (d : α) : ∀ (l2 l1 : List α),
    (List.range' l1.length l2.length).map (fun c => (l1 ++ l2).getD c d) = l2
  | [], _ => rfl
  | a :: l2, l1 => by
    rw [List.length_cons, List.range'_succ, List.map_cons]
    congr 1
    · have hmid : (l1 ++ a :: l2)[l1.length]? = some a := by
        rw [List.getElem?_append_right (le_refl l1.length)]
        simp
      simp [List.getD, hmid]
    · have h := map_getD_range'_append d l2 (l1 ++ [a])
      rw [List.length_append, List.length_singleton, List.append_assoc,
        List.singleton_append] at h
      exact h

theorem map_getD_range'_drop (l : List α) (d : α) (k : Nat) (hk : k ≤ l.length) :
    (List.range' k (l.length - k)).map (fun c => l.getD c d) = l.drop k := by
  have h := map_getD_range'_append d (l.drop k) (l.take k)
  rwa [List.take_append_drop, List.length_take, List.length_drop,
    min_eq_left hk] at h

/-! Helper lemmas about the MetricSpace encoder on square matrices. -/

theorem fullEntries_square {m : List (List ℚ)} {n : Nat} (hlen : m.length = n)
    (hrow : ∀ row ∈ m, row.length = n) : fullEntries m = .ok m.flatten := by
  unfold fullEntries
  rw [exMapM_ok_map (fun i => m.getD i []) _ ?_]
  · rw [map_getD_range]
  · intro i hi
    have hi2 : i < m.length := List.mem_range.1 hi
    rw [pyIndexE_eq_ok ([] : List ℚ) hi2]
    show exMapM (fun j => pyIndexE (m.getD i []) j) (List.range m.length)
      = .ok (m.getD i [])
    have hmem : m.getD i [] ∈ m :=
      List.getElem?_mem (getElem?_eq_getD ([] : List ℚ) hi2)
    have hlen2 : m.length = (m.getD i []).length := by
      rw [hlen, hrow _ hmem]
    rw [hlen2]
    exact exMapM_pyIndexE_range _ (0 : ℚ)

theorem metricRowLine_square {m : List (List ℚ)} {n r : Nat}
    (hrow : ∀ row ∈ m, row.length = n) (hr : r < n) {row : List ℚ}
    (hget : m[r]? = some row) :
    metricRowLine m n r
      = .ok (String.join ((row.drop (r + 1)).map (fun x => formatFixed6 x ++ " "))) := by
  have hmem : row ∈ m := List.getElem?_mem hget
  have hrl : row.length = n := hrow row hmem
  have hidx : pyIndexE m r = .ok row := by rw [pyIndexE, hget]
  unfold metricRowLine
  rw [exMapM_ok_map (fun c => formatFixed6 (row.getD c 0) ++ " ") _ ?_]
  · have h2 : (List.range' (r + 1) (n - (r + 1))).map (fun c => row.getD c 0)
        = row.drop (r + 1) := by
      rw [← hrl]
      exact map_getD_range'_drop row 0 (r + 1) (by omega)
    rw [show (List.range' (r + 1) (n - (r + 1))).map
          (fun c => formatFixed6 (row.getD c 0) ++ " ")
        = ((List.range' (r + 1) (n - (r + 1))).map (fun c => row.getD c 0)).map
          (fun x => formatFixed6 x ++ " ") by rw [List.map_map]; rfl]
    rw [h2]
  · intro c hc
    have hcn : c < n := by
      have := List.mem_range'_1.1 hc
      omega
    have hc2 : c < row.length := by omega
    simp only [hidx]
    rw [pyIndexE_eq_ok (0 : ℚ) hc2]

theorem metricRows_all_ok {m : List (List ℚ)} {dim : Nat} {g : Nat → String}
    (h : ∀ r < dim, metricRowLine m dim r = .ok (g r)) :
    metricRows m dim = ((List.range dim).map g, none) := by
  have main : ∀ (rs : List Nat) (acc : List String),
      (∀ r ∈ rs, metricRowLine m dim r = .ok (g r)) →
      rs.foldl (metricRowsStep m dim) (acc, none) = (acc ++ rs.map g, none) := by
    intro rs
    induction rs with
    | nil => intro acc _; simp
    | cons r rs ih =>
      intro acc hall
      rw [List.foldl_cons, List.map_cons]
      have hstep : metricRowsStep m dim (acc, none) r = (acc ++ [g r], none) := by
        rw [metricRowsStep, hall r (List.mem_cons_self r rs)]
      rw [hstep, ih (acc ++ [g r]) (fun x hx => hall x (List.mem_cons_of_mem r hx))]
      simp
  have h2 := main (List.range dim) [] (fun r hr => h r (List.mem_range.1 hr))
  rw [metricRows, h2, List.nil_append]

theorem pyMaxStar_spec (x y : ℚ) (t : List ℚ) :
    ∃ M, pyMaxStar (x :: y :: t) = .ok M ∧ M ∈ x :: y :: t ∧
      ∀ e ∈ x :: y :: t, e ≤ M := by
  refine ⟨(y :: t).foldl max x, rfl, ?_, ?_⟩
  · rcases foldl_max_mem (y :: t) x with h | h
    · rw [h]; exact List.mem_cons_self x _
    · exact List.mem_cons_of_mem x h
  · intro e he
    rcases List.mem_cons.1 he with rfl | he2
    · exact init_le_foldl_max _ _
    · exact mem_le_foldl_max x he2

/-! Helper lemmas about the bounds parser. -/

theorem foldl_boundsStepE_error (ls : List String) (e : String) :
    ls.foldl boundsStepE (.error e) = .error e := by
  induction ls with
  | nil => rfl
  | cons l ls ih => exact ih

theorem not_high_of_low {s : String} (h : strStartsWith s "low:" = true) :
    strStartsWith s "high:" = false := by
  unfold strStartsWith at h ⊢
  have hl : ("low:").data = ['l', 'o', 'w', ':'] := rfl
  have hh : ("high:").data = ['h', 'i', 'g', 'h', ':'] := rfl
  rw [hl] at h
  rw [hh]
  cases hd : s.data with
  | nil => rw [hd] at h; simp [List.isPrefixOf] at h
  | cons c cs =>
    rw [hd] at h
    simp only [List.isPrefixOf, Bool.and_eq_true, beq_iff_eq] at h
    obtain ⟨rfl, _⟩ := h
    simp [List.isPrefixOf]

theorem boundsStepHigh_lower {b b' : Bounds} {l : String}
    (hs : boundsStepHigh b l = .ok b') : b'.lower_left = b.lower_left := by
  unfold boundsStepHigh at hs
  by_cases hh : strStartsWith l "high:" = true
  · rw [hh, if_pos rfl] at hs
    cases hp : parseFloats (strDropChars l 6) with
    | error e => rw [hp] at hs; cases hs
    | ok v =>
      rw [hp] at hs
      cases hs
      rfl
  · rw [Bool.not_eq_true] at hh
    rw [hh] at hs
    simp only [Bool.false_eq_true, if_false] at hs
    cases hs
    rfl

theorem boundsStep_lower_of_not_low {b b' : Bounds} {l : String}
    (h : strStartsWith (pyStrip l) "low:" = false) (hs : boundsStep b l = .ok b') :
    b'.lower_left = b.lower_left := by
  unfold boundsStep boundsStepLow at hs
  rw [h] at hs
  simp only [Bool.false_eq_true, if_false] at hs
  exact boundsStepHigh_lower hs

theorem boundsStep_low {b : Bounds} {l : String} {v : List ℚ}
    (h : strStartsWith (pyStrip l) "low:" = true)
    (hp : parseFloats (strDropChars (pyStrip l) 5) = .ok v) :
    boundsStep b l = .ok { b with lower_left := v } := by
  unfold boundsStep boundsStepLow boundsStepHigh
  rw [h, hp, not_high_of_low h]
  simp

theorem foldl_boundsStepE_lower {post : List String}
    (hpost : ∀ l ∈ post, strStartsWith (pyStrip l) "low:" = false) :
    ∀ {st b : Bounds}, post.foldl boundsStepE (.ok st) = .ok b →
      b.lower_left = st.lower_left := by
  induction post with
  | nil =>
    intro st b h
    cases h
    rfl
  | cons l post ih =>
    intro st b h
    rw [List.foldl_cons] at h
    cases hs : boundsStep st l with
    | error e =>
      rw [show boundsStepE (.ok st) l = .error e from hs] at h
      rw [foldl_boundsStepE_error] at h
      cases h
    | ok st1 =>
      rw [show boundsStepE (.ok st) l = .ok st1 from hs] at h
      have h1 := ih (fun x hx => hpost x (List.mem_cons_of_mem l hx)) h
      rw [h1]
      exact boundsStep_lower_of_not_low (hpost l (List.mem_cons_self l post)) hs

theorem not_low_of_high {s : String} (h : strStartsWith s "high:" = true) :
    strStartsWith s "low:" = false := by
  unfold strStartsWith at h ⊢
  have hl : ("low:").data = ['l', 'o', 'w', ':'] := rfl
  have hh : ("high:").data = ['h', 'i', 'g', 'h', ':'] := rfl
  rw [hh] at h
  rw [hl]
  cases hd : s.data with
  | nil => rw [hd] at h; simp [List.isPrefixOf] at h
  | cons c cs =>
    rw [hd] at h
    simp only [List.isPrefixOf, Bool.and_eq_true, beq_iff_eq] at h
    obtain ⟨rfl, _⟩ := h
    simp [List.isPrefixOf]

theorem boundsStep_upper_of_not_high {b b' : Bounds} {l : String}
    (h : strStartsWith (pyStrip l) "high:" = false) (hs : boundsStep b l = .ok b') :
    b'.upper_right = b.upper_right := by
  unfold boundsStep boundsStepLow boundsStepHigh at hs
  rw [h] at hs
  simp only [Bool.false_eq_true, if_false] at hs
  by_cases hlow : strStartsWith (pyStrip l) "low:" = true
  · rw [hlow, if_pos rfl] at hs
    cases hp : parseFloats (strDropChars (pyStrip l) 5) with
    | error e => rw [hp] at hs; cases hs
    | ok v =>
      rw [hp] at hs
      cases hs
      rfl
  · rw [Bool.not_eq_true] at hlow
    rw [hlow] at hs
    simp only [Bool.false_eq_true, if_false] at hs
    cases hs
    rfl

theorem boundsStep_high {b : Bounds} {l : String} {v : List ℚ}
    (h : strStartsWith (pyStrip l) "high:" = true)
    (hp : parseFloats (strDropChars (pyStrip l) 6) = .ok v) :
    boundsStep b l = .ok { b with upper_right := v } := by
  unfold boundsStep boundsStepLow boundsStepHigh
  rw [not_low_of_high h, h, hp]
  simp

theorem foldl_boundsStepE_upper {post : List String}
    (hpost : ∀ l ∈ post, strStartsWith (pyStrip l) "high:" = false) :
    ∀ {st b : Bounds}, post.foldl boundsStepE (.ok st) = .ok b →
      b.upper_right = st.upper_right := by
  induction post with
  | nil =>
    intro st b h
    cases h
    rfl
  | cons l post ih =>
    intro st b h
    rw [List.foldl_cons] at h
    cases hs : boundsStep st l with
    | error e =>
      rw [show boundsStepE (.ok st) l = .error e from hs] at h
      rw [foldl_boundsStepE_error] at h
      cases h
    | ok st1 =>
      rw [show boundsStepE (.ok st) l = .ok st1 from hs] at h
      have h1 := ih (fun x hx => hpost x (List.mem_cons_of_mem l hx)) h
      rw [h1]
      exact boundsStep_upper_of_not_high (hpost l (List.mem_cons_self l post)) hs

/-! Helper lemma about the slice parser: parsing distributes over
concatenation of the input lines when the whole parse succeeds, so
output order follows input order. -/

theorem parse_slices_append :
    ∀ (l1 l2 : List String) (r : List ((ℚ × ℚ) × Barcode)),
      parse_slices (l1 ++ l2) = .ok r →
      ∃ r1 r2, parse_slices l1 = .ok r1 ∧ parse_slices l2 = .ok r2 ∧ r = r1 ++ r2 := by
  intro l1
  induction l1 with
  | nil =>
    intro l2 r h
    exact ⟨[], r, rfl, h, rfl⟩
  | cons l ls ih =>
    intro l2 r h
    rw [List.cons_append] at h
    by_cases hb : pyStrip l = ""
    · rw [parse_slices, if_pos hb] at h
      obtain ⟨r1, r2, h1, h2, h3⟩ := ih l2 r h
      exact ⟨r1, r2, by rw [parse_slices, if_pos hb]; exact h1, h2, h3⟩
    · rw [parse_slices, if_neg hb] at h
      cases hp : parseSliceLine (pyStrip l) with
      | error e => rw [hp] at h; cases h
      | ok p =>
        rw [hp] at h
        cases hrest : parse_slices (ls ++ l2) with
        | error e => rw [hrest] at h; cases h
        | ok rest =>
          rw [hrest] at h
          cases h
          obtain ⟨r1, r2, h1, h2, h3⟩ := ih l2 rest hrest
          refine ⟨p :: r1, r2, ?_, h2, by rw [h3, List.cons_append]⟩
          rw [parse_slices, if_neg hb, hp, h1]

/-! Claim theorems. -/

/-- C1 (counterexample): for the cloud with the single point of
coordinate -3, constructed without a supplied max_dist, the stored
max_dist is 3, while the claimed span — maximum coordinate minus the
0-clamped minimum coordinate — is 0: the code also clamps the running
upper bound at 0, which the claim omits. -/
theorem C1_span_counterexample :
    pointCloudInit [⟨0, [-3]⟩] none none none
        = .ok ⟨none, [⟨0, [-3]⟩], none, 1, 3⟩ ∧
      span_claimed [⟨0, [-3]⟩] = 0 ∧ (3 : ℚ) ≠ 0 := by
  refine ⟨?_, ?_, by norm_num⟩
  · norm_num [pointCloudInit, firstMismatch, Point.dimension, truthyStr, calc_max_dist, absQ]
  · norm_num [span_claimed, allCoords, List.max?, List.min?]

/-- C1 (amended): for every PointCloud constructed without a supplied
max_dist, the stored max_dist is H - L, where H is the maximum of 0 and
all coordinates and L is the minimum of 0 and all coordinates — both
running bounds start at 0, so the value is the span of the coordinate
range widened to include 0. -/
theorem C1_max_dist_zero_clamped_span (pts : List Point)
    (second comments : Option String) (pc : PointCloud)
    (h : pointCloudInit pts second comments none = .ok pc) :
    ∃ H L, pc.max_dist = H - L ∧
      (H = 0 ∨ H ∈ allCoords pts) ∧ 0 ≤ H ∧ (∀ c ∈ allCoords pts, c ≤ H) ∧
      (L = 0 ∨ L ∈ allCoords pts) ∧ L ≤ 0 ∧ (∀ c ∈ allCoords pts, L ≤ c) := by
  have hmd : pc.max_dist = calc_max_dist pts := by
    cases pts with
    | nil => cases h
    | cons p0 rest =>
      simp only [pointCloudInit] at h
      cases hfm : firstMismatch p0.dimension (p0 :: rest) with
      | some r => rw [hfm] at h; exact Except.noConfusion h
      | none => rw [hfm] at h; cases h; rfl
  rw [hmd, calc_max_dist_eq]
  exact ⟨(allCoords pts).foldl max 0, (allCoords pts).foldl min 0, rfl,
    foldl_max_mem _ 0, init_le_foldl_max _ 0, fun c hc => mem_le_foldl_max 0 hc,
    foldl_min_mem _ 0, foldl_min_le_init _ 0, fun c hc => foldl_min_le_mem 0 hc⟩

/-- C1 (witness): the amended statement evaluated on the concrete
two-point cloud with coordinates -1, 5, 2 and -4. -/
theorem C1_max_dist_zero_clamped_span_witness :
    ∃ H L, (PointCloud.mk none [⟨0, [-1, 5]⟩, ⟨0, [2, -4]⟩] none 2 9).max_dist = H - L ∧
      (H = 0 ∨ H ∈ allCoords [⟨0, [-1, 5]⟩, ⟨0, [2, -4]⟩]) ∧ 0 ≤ H ∧
      (∀ c ∈ allCoords [⟨0, [-1, 5]⟩, ⟨0, [2, -4]⟩], c ≤ H) ∧
      (L = 0 ∨ L ∈ allCoords [⟨0, [-1, 5]⟩, ⟨0, [2, -4]⟩]) ∧ L ≤ 0 ∧
      (∀ c ∈ allCoords [⟨0, [-1, 5]⟩, ⟨0, [2, -4]⟩], L ≤ c) :=
  C1_max_dist_zero_clamped_span [⟨0, [-1, 5]⟩, ⟨0, [2, -4]⟩] none none
    ⟨none, [⟨0, [-1, 5]⟩, ⟨0, [2, -4]⟩], none, 2, 9⟩
    (by norm_num [pointCloudInit, firstMismatch, Point.dimension, truthyStr, calc_max_dist, absQ])

/-- C2 (counterexample): on a line with two spaces between angle and
offset, the source parser raises a ValueError — the header unpack
requires exactly two space-separated fields — while the claimed
split-once-at-the-first-occurrence reading parses the line to one slice
keyed (1.0, 2.0).  So the parser does not split at first occurrences. -/
theorem C2_first_split_counterexample :
    parse_slices ["1.0  2.0: 1.0 2.0 m1"] = .error "ValueError: header unpack" ∧
    parse_slices_claim ["1.0  2.0: 1.0 2.0 m1"] = .ok [((1, 2), ⟨[⟨1, 2, 1⟩]⟩)] :=
  ⟨by decide, by decide⟩

/-- C2 (amended): the slice parser splits each non-blank stripped line at
its colons requiring exactly one colon, splits the header at its spaces
requiring exactly two fields — a line with extra colons or extra spaces
in the header is a parse error rather than being split at the first
occurrence — splits the body on commas skipping empty stripped tokens,
and parses each remaining token as birth, death and a multiplicity token
whose first character is removed; the single-line example yields exactly
the slice keyed (0.0, 0.0) with bars (1.0, 2.0, 1) and (3.0, 4.0, 2);
blank lines are skipped and output pairs preserve input line order
(parsing distributes over concatenation). -/
theorem C2_slice_parser_amended :
    parse_slices ["0.0 0.0: 1.0 2.0 m1, 3.0 4.0 m2"]
      = .ok [((0, 0), ⟨[⟨1, 2, 1⟩, ⟨3, 4, 2⟩]⟩)] ∧
    (∀ l ls, pyStrip l = "" → parse_slices (l :: ls) = parse_slices ls) ∧
    (∀ l1 l2 r, parse_slices (l1 ++ l2) = .ok r →
      ∃ r1 r2, parse_slices l1 = .ok r1 ∧ parse_slices l2 = .ok r2 ∧ r = r1 ++ r2) ∧
    parse_slices ["1.0  2.0: 1.0 2.0 m1"] = .error "ValueError: header unpack" := by
  refine ⟨by decide, ?_, fun l1 l2 r h => parse_slices_append l1 l2 r h, by decide⟩
  intro l ls h
  rw [parse_slices, if_pos h]

/-- C2 (witness): the blank-line clause of the amended statement applied
to the empty line in front of the concrete example line. -/
theorem C2_slice_parser_amended_witness :
    parse_slices ["", "0.0 0.0: 1.0 2.0 m1, 3.0 4.0 m2"]
      = parse_slices ["0.0 0.0: 1.0 2.0 m1, 3.0 4.0 m2"] :=
  C2_slice_parser_amended.2.1 "" ["0.0 0.0: 1.0 2.0 m1, 3.0 4.0 m2"] (by decide)

/-- C3: the Betti parser on the eleven-line example produces x-grades
one half and one, y-grades one and two (as exact rationals), xi_0 with
the single triple (0,0,1) and empty xi_1, xi_2; and on any state a blank
line resets both the current-grade-list register and the current-xi
register. -/
theorem C3_betti_parse_and_blank_reset :
    parse_betti ["x-grades", "1/2", "1", "", "y-grades", "1", "2", "",
        "xi_0", "(0,0,1)", ""]
      = .ok ⟨⟨[mkRat 1 2, 1], [1, 2]⟩, [(0, 0, 1)], [], []⟩ ∧
    ∀ st l, pyStrip l = "" →
      bettiStep st l = .ok { st with cur_grades := none, cur_xi := none } := by
  refine ⟨by decide, ?_⟩
  intro st l h
  rw [bettiStep, h, bettiTrans, if_neg (by decide), if_neg (by decide), if_pos rfl]

/-- C3 (witness): the blank-line reset applied to the initial state and
the empty line. -/
theorem C3_betti_parse_and_blank_reset_witness :
    bettiStep bettiInit "" = .ok { bettiInit with cur_grades := none, cur_xi := none } :=
  C3_betti_parse_and_blank_reset.2 bettiInit "" (by decide)

/-- C4: the bounds parser takes from a stripped line starting with the
low prefix the characters from position 5 parsed as comma-separated
floats as the lower-left corner, from a line with the high prefix the
characters from position 6 as the upper-right corner; lines after the
last such line that do not carry the prefix leave the corner unchanged
(so the last occurrence of each prefix wins and other lines are
ignored); the two-line example parses to (1,2), (3,4) and the empty
input to the defaults (0,0), (0,0). -/
theorem C4_parse_bounds_behavior :
    parse_bounds ["low: 1.0,2.0", "high: 3.0,4.0"] = .ok ⟨[1, 2], [3, 4]⟩ ∧
    parse_bounds [] = .ok ⟨[0, 0], [0, 0]⟩ ∧
    (∀ pre l post v b,
      strStartsWith (pyStrip l) "low:" = true →
      parseFloats (strDropChars (pyStrip l) 5) = .ok v →
      (∀ x ∈ post, strStartsWith (pyStrip x) "low:" = false) →
      parse_bounds (pre ++ l :: post) = .ok b →
      b.lower_left = v) ∧
    (∀ pre l post v b,
      strStartsWith (pyStrip l) "high:" = true →
      parseFloats (strDropChars (pyStrip l) 6) = .ok v →
      (∀ x ∈ post, strStartsWith (pyStrip x) "high:" = false) →
      parse_bounds (pre ++ l :: post) = .ok b →
      b.upper_right = v) := by
  refine ⟨by decide, by decide, ?_, ?_⟩
  · intro pre l post v b hlow hv hpost hb
    rw [parse_bounds, List.foldl_append, List.foldl_cons] at hb
    cases hA : pre.foldl boundsStepE (Except.ok ⟨[0, 0], [0, 0]⟩) with
    | error e =>
      rw [hA] at hb
      rw [show boundsStepE (Except.error e) l = Except.error e from rfl] at hb
      rw [foldl_boundsStepE_error] at hb
      exact Except.noConfusion hb
    | ok b0 =>
      rw [hA] at hb
      rw [show boundsStepE (Except.ok b0) l = boundsStep b0 l from rfl] at hb
      rw [boundsStep_low hlow hv] at hb
      rw [foldl_boundsStepE_lower hpost hb]
  · intro pre l post v b hhigh hv hpost hb
    rw [parse_bounds, List.foldl_append, List.foldl_cons] at hb
    cases hA : pre.foldl boundsStepE (Except.ok ⟨[0, 0], [0, 0]⟩) with
    | error e =>
      rw [hA] at hb
      rw [show boundsStepE (Except.error e) l = Except.error e from rfl] at hb
      rw [foldl_boundsStepE_error] at hb
      exact Except.noConfusion hb
    | ok b0 =>
      rw [hA] at hb
      rw [show boundsStepE (Except.ok b0) l = boundsStep b0 l from rfl] at hb
      rw [boundsStep_high hhigh hv] at hb
      rw [foldl_boundsStepE_upper hpost hb]

/-- C4 (witness): the last-low-line-wins clause applied to the single
concrete low line. -/
theorem C4_parse_bounds_behavior_witness :
    (Bounds.mk [1, 2] [0, 0]).lower_left = [1, 2] :=
  C4_parse_bounds_behavior.2.2.1 [] "low: 1.0,2.0" [] [1, 2] ⟨[1, 2], [0, 0]⟩
    (by decide) (by decide) (by simp) (by decide)

/-- C5: for every nonempty point sequence containing a point whose
dimension differs from that of the first point, construction raises the
ValueError naming the lowest mismatching position (every earlier
position has the expected dimension), and construction succeeds whenever
all points share the first point's dimension.  Construction is a pure
function in this embedding: no output is produced on the error path. -/
theorem C5_dimension_validation (pts : List Point) (second comments : Option String)
    (md : Option ℚ) (p0 : Point) (rest : List Point) (hpts : pts = p0 :: rest) :
    ((∃ p ∈ pts, p.dimension ≠ p0.dimension) →
      ∃ i dd, pointCloudInit pts second comments md
          = .error (mismatchMsg p0.dimension i dd) ∧
        (pts.get? i).map Point.dimension = some dd ∧ dd ≠ p0.dimension ∧
        ∀ j, j < i → (pts.get? j).map Point.dimension = some p0.dimension) ∧
    ((∀ p ∈ pts, p.dimension = p0.dimension) →
      ∃ pc, pointCloudInit pts second comments md = .ok pc) := by
  subst hpts
  constructor
  · rintro ⟨p, hp, hne⟩
    cases hfm : firstMismatch p0.dimension (p0 :: rest) with
    | none => exact absurd (firstMismatch_eq_none.1 hfm p hp) hne
    | some r =>
      obtain ⟨i, dd⟩ := r
      obtain ⟨ha, hb, hc⟩ := firstMismatch_spec hfm
      refine ⟨i, dd, ?_, ha, hb, hc⟩
      simp only [pointCloudInit]
      rw [hfm]
  · intro hall
    simp only [pointCloudInit]
    rw [firstMismatch_eq_none.2 hall]
    exact ⟨_, rfl⟩

/-- C5 (witness): the validation applied to the concrete two-point cloud
whose second point has the wrong dimension. -/
theorem C5_dimension_validation_witness :
    ((∃ p ∈ [Point.mk 0 [1, 2], Point.mk 0 [3]],
        p.dimension ≠ (Point.mk 0 [1, 2]).dimension) →
      ∃ i dd, pointCloudInit [Point.mk 0 [1, 2], Point.mk 0 [3]] none none none
          = .error (mismatchMsg (Point.mk 0 [1, 2]).dimension i dd) ∧
        ([Point.mk 0 [1, 2], Point.mk 0 [3]].get? i).map Point.dimension = some dd ∧
        dd ≠ (Point.mk 0 [1, 2]).dimension ∧
        ∀ j, j < i → ([Point.mk 0 [1, 2], Point.mk 0 [3]].get? j).map Point.dimension
          = some (Point.mk 0 [1, 2]).dimension) ∧
    ((∀ p ∈ [Point.mk 0 [1, 2], Point.mk 0 [3]],
        p.dimension = (Point.mk 0 [1, 2]).dimension) →
      ∃ pc, pointCloudInit [Point.mk 0 [1, 2], Point.mk 0 [3]] none none none = .ok pc) :=
  C5_dimension_validation [Point.mk 0 [1, 2], Point.mk 0 [3]] none none none
    (Point.mk 0 [1, 2]) [Point.mk 0 [3]] rfl

/-- C7: common_bounds of Bounds with 2-element corners is the
coordinate-wise min of lower-left corners and max of upper-right
corners, and is commutative and associative; it is a pure function of
its two arguments, so neither operand is mutated. -/
theorem C7_common_bounds_comm_assoc (a b c : Bounds)
    (ha1 : a.lower_left.length = 2) (ha2 : a.upper_right.length = 2)
    (hb1 : b.lower_left.length = 2) (hb2 : b.upper_right.length = 2)
    (hc1 : c.lower_left.length = 2) (hc2 : c.upper_right.length = 2) :
    common_bounds a b
      = .ok ⟨[min (a.lower_left.getD 0 0) (b.lower_left.getD 0 0),
              min (a.lower_left.getD 1 0) (b.lower_left.getD 1 0)],
             [max (a.upper_right.getD 0 0) (b.upper_right.getD 0 0),
              max (a.upper_right.getD 1 0) (b.upper_right.getD 1 0)]⟩ ∧
    common_bounds a b = common_bounds b a ∧
    ∀ ab bc, common_bounds a b = .ok ab → common_bounds b c = .ok bc →
      common_bounds ab c = common_bounds a bc := by
  obtain ⟨all, aur⟩ := a
  obtain ⟨bll, bur⟩ := b
  obtain ⟨cll, cur⟩ := c
  simp only at ha1 ha2 hb1 hb2 hc1 hc2
  obtain ⟨la0, la1, rfl⟩ := List.length_eq_two.1 ha1
  obtain ⟨ua0, ua1, rfl⟩ := List.length_eq_two.1 ha2
  obtain ⟨lb0, lb1, rfl⟩ := List.length_eq_two.1 hb1
  obtain ⟨ub0, ub1, rfl⟩ := List.length_eq_two.1 hb2
  obtain ⟨lc0, lc1, rfl⟩ := List.length_eq_two.1 hc1
  obtain ⟨uc0, uc1, rfl⟩ := List.length_eq_two.1 hc2
  have eab : common_bounds ⟨[la0, la1], [ua0, ua1]⟩ ⟨[lb0, lb1], [ub0, ub1]⟩
      = .ok ⟨[min la0 lb0, min la1 lb1], [max ua0 ub0, max ua1 ub1]⟩ := rfl
  have eba : common_bounds ⟨[lb0, lb1], [ub0, ub1]⟩ ⟨[la0, la1], [ua0, ua1]⟩
      = .ok ⟨[min lb0 la0, min lb1 la1], [max ub0 ua0, max ub1 ua1]⟩ := rfl
  have ebc : common_bounds ⟨[lb0, lb1], [ub0, ub1]⟩ ⟨[lc0, lc1], [uc0, uc1]⟩
      = .ok ⟨[min lb0 lc0, min lb1 lc1], [max ub0 uc0, max ub1 uc1]⟩ := rfl
  refine ⟨eab, ?_, ?_⟩
  · rw [eab, eba, min_comm la0 lb0, min_comm la1 lb1, max_comm ua0 ub0, max_comm ua1 ub1]
  · intro ab bc hab hbc
    rw [eab] at hab
    rw [ebc] at hbc
    cases hab
    cases hbc
    have e1 : common_bounds
        ⟨[min la0 lb0, min la1 lb1], [max ua0 ub0, max ua1 ub1]⟩
        ⟨[lc0, lc1], [uc0, uc1]⟩
      = .ok ⟨[min (min la0 lb0) lc0, min (min la1 lb1) lc1],
             [max (max ua0 ub0) uc0, max (max ua1 ub1) uc1]⟩ := rfl
    have e2 : common_bounds ⟨[la0, la1], [ua0, ua1]⟩
        ⟨[min lb0 lc0, min lb1 lc1], [max ub0 uc0, max ub1 uc1]⟩
      = .ok ⟨[min la0 (min lb0 lc0), min la1 (min lb1 lc1)],
             [max ua0 (max ub0 uc0), max ua1 (max ub1 uc1)]⟩ := rfl
    rw [e1, e2, min_assoc la0 lb0 lc0, min_assoc la1 lb1 lc1,
      max_assoc ua0 ub0 uc0, max_assoc ua1 ub1 uc1]

/-- C7 (witness): the commutativity and associativity clauses evaluated
on three concrete rectangles. -/
theorem C7_common_bounds_comm_assoc_witness :
    common_bounds ⟨[1, 2], [3, 4]⟩ ⟨[0, 5], [2, 2]⟩
      = .ok ⟨[min ((1 : ℚ)) 0, min (2 : ℚ) 5], [max (3 : ℚ) 2, max (4 : ℚ) 2]⟩ ∧
    common_bounds ⟨[1, 2], [3, 4]⟩ ⟨[0, 5], [2, 2]⟩
      = common_bounds ⟨[0, 5], [2, 2]⟩ ⟨[1, 2], [3, 4]⟩ ∧
    ∀ ab bc, common_bounds ⟨[1, 2], [3, 4]⟩ ⟨[0, 5], [2, 2]⟩ = .ok ab →
      common_bounds ⟨[0, 5], [2, 2]⟩ ⟨[-1, 0], [9, 1]⟩ = .ok bc →
      common_bounds ab ⟨[-1, 0], [9, 1]⟩ = common_bounds ⟨[1, 2], [3, 4]⟩ bc := by
  have h := C7_common_bounds_comm_assoc ⟨[1, 2], [3, 4]⟩ ⟨[0, 5], [2, 2]⟩
    ⟨[-1, 0], [9, 1]⟩ (by decide) (by decide) (by decide) (by decide)
    (by decide) (by decide)
  exact ⟨h.1, h.2.1, h.2.2⟩

/-- C8: a supplied max_dist that is falsy (zero, or absent) is ignored
and the computed span is stored instead; a nonzero supplied max_dist is
stored as given. -/
theorem C8_falsy_supplied_max_dist (pts : List Point) (second comments : Option String)
    (q : ℚ) (p0 : Point) (rest : List Point) (hpts : pts = p0 :: rest)
    (hdim : ∀ p ∈ pts, p.dimension = p0.dimension) :
    (∃ pc, pointCloudInit pts second comments (some 0) = .ok pc ∧
      pc.max_dist = calc_max_dist pts) ∧
    (∃ pc, pointCloudInit pts second comments none = .ok pc ∧
      pc.max_dist = calc_max_dist pts) ∧
    (q ≠ 0 → ∃ pc, pointCloudInit pts second comments (some q) = .ok pc ∧
      pc.max_dist = q) := by
  subst hpts
  have hfm : firstMismatch p0.dimension (p0 :: rest) = none := firstMismatch_eq_none.2 hdim
  refine
    ⟨⟨⟨truthyStr second, p0 :: rest, comments, p0.dimension,
        calc_max_dist (p0 :: rest)⟩, ?_, rfl⟩,
     ⟨⟨truthyStr second, p0 :: rest, comments, p0.dimension,
        calc_max_dist (p0 :: rest)⟩, ?_, rfl⟩,
     fun hq =>
      ⟨⟨truthyStr second, p0 :: rest, comments, p0.dimension, q⟩, ?_, rfl⟩⟩
  · simp [pointCloudInit, hfm]
  · simp [pointCloudInit, hfm]
  · simp [pointCloudInit, hfm, hq]

/-- C8 (witness): a supplied nonzero max_dist of 5 on a one-point cloud
is stored as given. -/
theorem C8_falsy_supplied_max_dist_witness :
    ∃ pc, pointCloudInit [⟨0, [1]⟩] none none (some 5) = .ok pc ∧ pc.max_dist = 5 :=
  (C8_falsy_supplied_max_dist [⟨0, [1]⟩] none none 5 ⟨0, [1]⟩ [] rfl
    (by decide)).2.2 (by norm_num)

/-- C9: supplying the empty string as second_param_name behaves exactly
like omitting it — the constructor results coincide and the stored field
is None; when the field is None the save output has the literal
no-function line directly after the three header lines that follow the
comment block, and each per-point line is exactly the coordinate tokens;
with a name present each per-point line is the coordinate tokens plus
the appearance token, so the appearance value is emitted exactly when a
non-empty name was supplied. -/
theorem C9_empty_second_param :
    (∀ pts comments md,
      pointCloudInit pts (some "") comments md = pointCloudInit pts none comments md) ∧
    (∀ pts comments md pc, pointCloudInit pts (some "") comments md = .ok pc →
      pc.second_param_name = none) ∧
    (∀ pc : PointCloud, pc.second_param_name = none →
      (pointCloudSave pc)[(commentLines pc.comments).length + 3]? = some "no function" ∧
      ∀ i p, pc.points[i]? = some p →
        (pointCloudSave pc)[(commentLines pc.comments).length + 4 + i]?
          = some (pointLine none p)) ∧
    (∀ p : Point, pointLine none p
        = String.join (p.coords.map (fun x => formatFixed6 x ++ " "))) ∧
    (∀ s p, pointLine (some s) p
        = String.join (p.coords.map (fun x => formatFixed6 x ++ " "))
            ++ (formatFixed6 p.appearance ++ " ")) := by
  refine ⟨fun pts comments md => rfl, ?_, ?_, ?_, fun s p => rfl⟩
  · intro pts comments md pc h
    cases pts with
    | nil => exact Except.noConfusion h
    | cons p0 rest =>
      simp only [pointCloudInit] at h
      cases hfm : firstMismatch p0.dimension (p0 :: rest) with
      | some r => rw [hfm] at h; exact Except.noConfusion h
      | none => rw [hfm] at h; cases h; rfl
  · intro pc h
    constructor
    · rw [pointCloudSave, h]
      rw [List.getElem?_append_right
        (by omega : (commentLines pc.comments).length
          ≤ (commentLines pc.comments).length + 3)]
      simp
    · intro i p hip
      have hi : i < pc.points.length := by
        by_contra hcon
        rw [List.getElem?_eq_none (by omega)] at hip
        exact Option.noConfusion hip
      rw [pointCloudSave, h]
      rw [List.getElem?_append_right
        (by omega : (commentLines pc.comments).length
          ≤ (commentLines pc.comments).length + 4 + i)]
      have h4 : (commentLines pc.comments).length + 4 + i
          - (commentLines pc.comments).length = 4 + i := by omega
      rw [h4]
      rw [List.getElem?_append_right
        (by simp : (["points", toString pc.dimension, formatFixed6 pc.max_dist,
          "no function"] : List String).length ≤ 4 + i)]
      have h5 : 4 + i - (["points", toString pc.dimension, formatFixed6 pc.max_dist,
          "no function"] : List String).length = i := by simp
      rw [h5]
      rw [List.getElem?_append_left (by simpa using hi), List.getElem?_map, hip]
      rfl
  · intro p
    simp [pointLine]

/-- C9 (witness): the no-function line and the coordinate-only point
line of the save output of a concrete PointCloud whose field is None. -/
theorem C9_empty_second_param_witness :
    (pointCloudSave ⟨none, [⟨7, [1]⟩], none, 1, 3⟩)[(commentLines
        (PointCloud.mk none [⟨7, [1]⟩] none 1 3).comments).length + 3]?
      = some "no function" ∧
    ∀ i p, (PointCloud.mk none [⟨7, [1]⟩] none 1 3).points[i]? = some p →
      (pointCloudSave ⟨none, [⟨7, [1]⟩], none, 1, 3⟩)[(commentLines
          (PointCloud.mk none [⟨7, [1]⟩] none 1 3).comments).length + 4 + i]?
        = some (pointLine none p) :=
  C9_empty_second_param.2.2.1 ⟨none, [⟨7, [1]⟩], none, 1, 3⟩ rfl

/-- C10: MetricSpace.save on a 1-by-1 distance matrix writes the four
header lines and then raises the TypeError from calling max with one
non-iterable argument, before any distance row or max-distance line is
written; the 0-by-0 matrix likewise fails (max with no arguments), so
the encoder is only total on matrices with at least two rows. -/
theorem C10_metric_save_needs_two_rows (alabel dlabel : String)
    (c : Option String) (d : ℚ) :
    metricSave ⟨alabel, dlabel, none, [[d]], c⟩
      = (["metric"] ++ metricCommentLines c ++ ["no function", "1"] ++ [dlabel],
         some "TypeError: object is not iterable") ∧
    metricSave ⟨alabel, dlabel, none, [], c⟩
      = (["metric"] ++ metricCommentLines c ++ ["no function", "0"] ++ [dlabel],
         some "TypeError: max expected at least 1 argument, got 0") := by
  have hh1 : metricHead ⟨alabel, dlabel, none, [[d]], c⟩
      = ["metric"] ++ metricCommentLines c ++ ["no function", "1"] ++ [dlabel] := by
    simp only [metricHead, List.length_cons, List.length_nil]
    rfl
  have hh0 : metricHead ⟨alabel, dlabel, none, [], c⟩
      = ["metric"] ++ metricCommentLines c ++ ["no function", "0"] ++ [dlabel] := by
    simp only [metricHead, List.length_nil]
    rfl
  constructor
  · rw [show metricSave ⟨alabel, dlabel, none, [[d]], c⟩
        = (metricHead ⟨alabel, dlabel, none, [[d]], c⟩,
           some "TypeError: object is not iterable") from rfl, hh1]
  · rw [show metricSave ⟨alabel, dlabel, none, [], c⟩
        = (metricHead ⟨alabel, dlabel, none, [], c⟩,
           some "TypeError: max expected at least 1 argument, got 0") from rfl, hh0]

/-- C6: for every square distance matrix with at least two rows and no
appearance values (and no comment), MetricSpace.save succeeds and writes
the metric line, the no-function line, the point count, the distance
label, the max-distance line holding the maximum entry of the FULL
matrix (it is a member of the flattened matrix and an upper bound for
every entry, lower triangle included), and then one line per row r
holding exactly the entries at columns r+1 to n-1 as percent-f-space
tokens; on the concrete 3-by-3 upper-triangular example the three row
lines carry 2, 1 and 0 tokens. -/
theorem C6_metric_save_square :
    (∀ (alabel dlabel : String) (m : List (List ℚ)) (n : Nat),
      2 ≤ n → m.length = n → (∀ row ∈ m, row.length = n) →
      ∃ M rows,
        metricSave ⟨alabel, dlabel, none, m, none⟩
          = (["metric", "no function", toString n, dlabel, formatFixed6 M]
              ++ rows, none) ∧
        M ∈ m.flatten ∧ (∀ x ∈ m.flatten, x ≤ M) ∧
        rows.length = n ∧
        (∀ r row, m[r]? = some row →
          rows[r]? = some (String.join ((row.drop (r + 1)).map
            (fun x => formatFixed6 x ++ " "))) ∧
          ((row.drop (r + 1)).map (fun x => formatFixed6 x ++ " ")).length
            = n - (r + 1))) ∧
    metricSave ⟨"app", "distance", none, [[0, 1, 2], [0, 0, 3], [0, 0, 0]], none⟩
      = (["metric", "no function", "3", "distance", "3.000000",
          "1.000000 2.000000 ", "3.000000 ", ""], none) ∧
    countTokens "1.000000 2.000000 " = 2 ∧ countTokens "3.000000 " = 1 ∧
    countTokens "" = 0 := by
  refine ⟨?_, by decide, by decide, by decide, by decide⟩
  intro alabel dlabel m n hn hlen hrow
  obtain ⟨row0, m', rfl⟩ : ∃ row0 m', m = row0 :: m' := by
    cases m with
    | nil => rw [List.length_nil] at hlen; omega
    | cons a b => exact ⟨a, b, rfl⟩
  obtain ⟨x, y, t, rfl⟩ : ∃ x y t, row0 = x :: y :: t := by
    have h0 : row0.length = n := hrow row0 (List.mem_cons_self _ _)
    cases row0 with
    | nil => rw [List.length_nil] at h0; omega
    | cons x r1 =>
      cases r1 with
      | nil => simp only [List.length_cons, List.length_nil] at h0; omega
      | cons y t => exact ⟨x, y, t, rfl⟩
  have hfe := fullEntries_square hlen hrow
  have hflat : ((x :: y :: t) :: m').flatten = x :: y :: (t ++ m'.flatten) := rfl
  obtain ⟨M, hmax, hMmem, hMub⟩ := pyMaxStar_spec x y (t ++ m'.flatten)
  have hrows : metricRows ((x :: y :: t) :: m') n
      = ((List.range n).map (fun r => String.join
          (((((x :: y :: t) :: m').getD r []).drop (r + 1)).map
            (fun q => formatFixed6 q ++ " "))), none) := by
    apply metricRows_all_ok
    intro r hr
    exact metricRowLine_square hrow hr (getElem?_eq_getD [] (by omega))
  refine ⟨M, (List.range n).map (fun r => String.join
      (((((x :: y :: t) :: m').getD r []).drop (r + 1)).map
        (fun q => formatFixed6 q ++ " "))), ?_, ?_, ?_, by simp, ?_⟩
  · simp only [metricSave, hfe]
    rw [show (((x :: y :: t) :: m').flatten) = x :: y :: (t ++ m'.flatten) from rfl]
    rw [hmax]
    rw [show ((x :: y :: t) :: m').length = n from hlen]
    rw [hrows]
    simp [metricHead, metricCommentLines, hlen]
  · exact hMmem
  · exact hMub
  · intro r row hget
    have hr : r < n := by
      by_contra hcon
      rw [List.getElem?_eq_none (by omega : ((x :: y :: t) :: m').length ≤ r)] at hget
      exact Option.noConfusion hget
    have hgd : ((x :: y :: t) :: m').getD r [] = row := by
      simp [List.getD, hget]
    constructor
    · rw [List.getElem?_map, List.getElem?_range hr]
      simp only [Option.map_some']
      rw [hgd]
    · rw [List.length_map, List.length_drop, hrow row (List.getElem?_mem hget)]

/-- C6 (witness): the row-structure statement applied to the concrete
3-by-3 matrix. -/
theorem C6_metric_save_square_witness :
    ∃ M rows,
      metricSave ⟨"app", "distance", none,
          [[0, 1, 2], [0, 0, 3], [0, 0, 0]], none⟩
        = (["metric", "no function", toString (3 : Nat), "distance",
            formatFixed6 M] ++ rows, none) ∧
      M ∈ ([[0, 1, 2], [0, 0, 3], [0, 0, 0]] : List (List ℚ)).flatten ∧
      (∀ x ∈ ([[0, 1, 2], [0, 0, 3], [0, 0, 0]] : List (List ℚ)).flatten, x ≤ M) ∧
      rows.length = 3 ∧
      (∀ r row, ([[0, 1, 2], [0, 0, 3], [0, 0, 0]] : List (List ℚ))[r]? = some row →
        rows[r]? = some (String.join ((row.drop (r + 1)).map
          (fun x => formatFixed6 x ++ " "))) ∧
        ((row.drop (r + 1)).map (fun x => formatFixed6 x ++ " ")).length
          = 3 - (r + 1)) :=
  C6_metric_save_square.1 "app" "distance" [[0, 1, 2], [0, 0, 3], [0, 0, 0]] 3
    (by omega) (by decide) (by decide)

end Rivet
